import Mathlib

/-!
# Verification of the `proxy.py` request-handling pipeline

This file gives a shallow embedding of the caching forward proxy in
`proxy.py` and settles the frozen claims about it.

Python strings are modelled as Lean `String`s (a `String` is a list of
characters; the HTTP payloads handled by the program are treated as byte
texts, so `String.length` plays the role of both `len` and byte length).
Python string operations (`split`, `strip`, `in`, `list.index`,
`list.insert`, slicing) are re-implemented below by structural recursion on
the character list, so that every definition evaluates by `decide`.

Fallible Python code is modelled with `Except`: an uncaught exception is an
`.error` carrying a `PyErr`, and `sys.exit(...)` is an `.error` carrying
`Fail.exit status` (with the Python semantics that `sys.exit()` without an
argument exits with status 0).

External effects (client socket, origin socket, filesystem read/write
outcomes) are passed in explicitly as parameters of the handler; the cache
(the filesystem tree under `./cache/`) is an association list from path
strings to file contents.
-/

/-! ## Character-level string primitives -/

/-- Equality of `sub` with the leading segment of `l`. -/
def listPrefixEq : List Char → List Char → Bool
  | [], _ => true
  | _ :: _, [] => false
  | a :: as, b :: bs => a = b && listPrefixEq as bs

/-- Python's substring test `sub in s`, on character lists. -/
def listHasSub (sub : List Char) : List Char → Bool
  | [] => sub.isEmpty
  | c :: rest => listPrefixEq sub (c :: rest) || listHasSub sub rest

/-- Python's `sub in s` on strings. -/
def pyIn (sub s : String) : Bool := listHasSub sub.data s.data

/-- The whitespace characters stripped by Python's `str.strip()`. -/
def pyIsSpace (c : Char) : Bool :=
  c = ' ' || c = '\t' || c = '\n' || c = '\r' || c = '\x0b' || c = '\x0c'

/-- Python's `str.strip()` on a character list. -/
def stripChars (l : List Char) : List Char :=
  ((l.dropWhile pyIsSpace).reverse.dropWhile pyIsSpace).reverse

/-- Python's `str.strip()`. -/
def pyStrip (s : String) : String := String.mk (stripChars s.data)

/-- Python's `s.split("\r\n")` on a character list: split on every
occurrence of the two-character separator CR LF, keeping empty pieces. -/
def splitCRLFChars : List Char → List (List Char)
  | [] => [[]]
  | [c] => [[c]]
  | c :: d :: rest =>
    if c = '\r' ∧ d = '\n' then [] :: splitCRLFChars rest
    else
      match splitCRLFChars (d :: rest) with
      | [] => [[c]]
      | l :: ls => (c :: l) :: ls

/-- Python's `s.split("\r\n")`. -/
def pySplitCRLF (s : String) : List String :=
  (splitCRLFChars s.data).map String.mk

/-- Python's `s.split(sep)` for a one-character separator, on character
lists: keeps empty pieces, `[[]]` on the empty string. -/
def splitAtChar (sep : Char) : List Char → List (List Char)
  | [] => [[]]
  | c :: rest =>
    if c = sep then [] :: splitAtChar sep rest
    else
      match splitAtChar sep rest with
      | [] => [[c]]
      | l :: ls => (c :: l) :: ls

/-- Python's `s.split(" ")`. -/
def pySplitSpace (s : String) : List String :=
  (splitAtChar ' ' s.data).map String.mk

/-- Python's `s.split("/")`. -/
def pySplitSlash (s : String) : List String :=
  (splitAtChar '/' s.data).map String.mk

/-- Python's `list.index(x)`: index of the first occurrence, `none` when the
element is absent (where Python raises `ValueError`). -/
def pyIndex : List String → String → Option Nat
  | [], _ => none
  | x :: xs, y => if x = y then some 0 else (pyIndex xs y).map (· + 1)

/-- Python's `list.insert(i, x)` (for `i ≤ length`, which is how the source
uses it): insert `x` so that it ends up at index `i`. -/
def pyInsert : List String → Nat → String → List String
  | l, 0, x => x :: l
  | [], _ + 1, x => [x]
  | a :: as, i + 1, x => a :: pyInsert as i x

/-- Python's string slice `s[0:n]`. -/
def strTake (n : Nat) (s : String) : String := String.mk (s.data.take n)

/-- Does the string start with `"\r\n"`? -/
def startsWithCRLF (s : String) : Bool := listPrefixEq ['\r', '\n'] s.data

/-- Does the string end with `"\r\n"`? -/
def endsCRLFChars : List Char → Bool
  | [] => false
  | [_] => false
  | [c, d] => c = '\r' && d = '\n'
  | _ :: d :: e :: rest => endsCRLFChars (d :: e :: rest)

/-- Does the string end with `"\r\n"`? -/
def endsWithCRLF (s : String) : Bool := endsCRLFChars s.data

/-- Digits of a natural number, most significant first (`fuel`-bounded so the
definition is structural; `natToStr` always supplies enough fuel). -/
def natDigits : Nat → Nat → List Char
  | 0, _ => []
  | fuel + 1, n =>
    if n < 10 then [Char.ofNat (48 + n)]
    else natDigits fuel (n / 10) ++ [Char.ofNat (48 + n % 10)]

/-- Python's `str(n)` for a non-negative int: decimal digits. -/
def natToStr (n : Nat) : String := String.mk (natDigits (n + 1) n)

/-- Parse a non-empty all-digit character list as a natural number. -/
def digitsToNat? (l : List Char) : Option Nat :=
  if l ≠ [] ∧ l.all Char.isDigit then
    some (l.foldl (fun a c => a * 10 + (c.toNat - 48)) 0)
  else none

/-- The reassembly loop `for line in lines: out += line + "\r\n"`. -/
def joinLines : List String → String
  | [] => ""
  | l :: ls => l ++ "\r\n" ++ joinLines ls

/-- The reassembly loop `for line in lines: out += line` (no separators). -/
def concatLines : List String → String
  | [] => ""
  | l :: ls => l ++ concatLines ls

/-- Lines joined by `"\r\n"` separators (used to express the body text that
a list of body lines originally denoted on the wire). -/
def intercalateCRLF : List String → String
  | [] => ""
  | [l] => l
  | l :: l' :: ls => l ++ "\r\n" ++ intercalateCRLF (l' :: ls)

/-- Number of occurrences of `x` in `l`. -/
def countEq (l : List String) (x : String) : Nat :=
  (l.filter (fun y => y = x)).length

/-! ## Dynamic typing, exceptions, `sys.exit` -/

/-- A Python runtime value, as far as this program compares them: the status
code extracted from a response is a `str`, and the dispatch compares it with
`int` literals. -/
inductive PyVal where
  | str : String → PyVal
  | int : Int → PyVal
deriving DecidableEq, Repr

/-- Python `==` between dynamically typed values: values of different types
are never equal (in particular `"200" == 200` is `False`). -/
def pyEq : PyVal → PyVal → Bool
  | .str a, .str b => a = b
  | .int a, .int b => a = b
  | _, _ => false

deriving instance DecidableEq for Except

/-- The uncaught Python exceptions this program can raise. -/
inductive PyErr where
  | attributeError
  | indexError
  | valueError
deriving DecidableEq, Repr

/-- How a fallible call ends besides returning: an uncaught exception, or
`sys.exit` terminating the process with the given status. -/
inductive Fail where
  | raised (e : PyErr)
  | exit (status : Nat)
deriving DecidableEq, Repr

/-- Python's `sys.exit(arg)`: process exit status; `sys.exit()` (no
argument, `arg = none`) exits with status 0. -/
def pySysExitStatus (arg : Option Nat) : Nat := arg.getD 0

/-! ## The URL model

`urllib.parse.urlparse` is Python standard library, outside the repository;
it is modelled here for the absolute `http://host[:port][/path]` URLs this
proxy receives: `scheme` is `"http"`, `netloc` is everything between
`"http://"` and the first `"/"`, `hostname` is the netloc up to an optional
`":port"`, `port` is the optional decimal port, `path` the rest. -/

structure URLParsed where
  scheme : String
  netloc : String
  hostname : String
  port : Option Nat
  path : String
deriving DecidableEq, Repr

/-- Characters before the first `'/'`, and the rest (keeping the `'/'`). -/
def spanUntilSlash : List Char → List Char × List Char
  | [] => ([], [])
  | c :: rest =>
    if c = '/' then ([], c :: rest)
    else
      let p := spanUntilSlash rest
      (c :: p.1, p.2)

/-- Characters before the first `':'`, and the rest after it when present. -/
def breakColon : List Char → List Char × Option (List Char)
  | [] => ([], none)
  | c :: rest =>
    if c = ':' then ([], some rest)
    else
      let p := breakColon rest
      (c :: p.1, p.2)

/-- Model of `urllib.parse.urlparse` for the URLs this proxy handles. -/
def urlparse (url : String) : URLParsed :=
  if listPrefixEq "http://".data url.data then
    let rest := url.data.drop 7
    let p := spanUntilSlash rest
    let hp := breakColon p.1
    { scheme := "http", netloc := String.mk p.1, hostname := String.mk hp.1,
      port := hp.2.bind digitsToNat?, path := String.mk p.2 }
  else
    { scheme := "", netloc := "", hostname := "", port := none, path := url }

/-- Model of `ParseResult.geturl()` for the URLs above. -/
def geturl (u : URLParsed) : String := u.scheme ++ "://" ++ u.netloc ++ u.path

/-! ## The proxy state and the cache -/

/-- The request attributes of the `ProxyServer` object. `__init__` assigns
none of them, so a fresh server has all four unset (`none`). `url_parsed`
appears in the source only at `parse_request` line 320 (as both the target
and, first, the operand of the read `self.url_parsed.geturl()`) and at
`send_request_to_server` lines 540-541. -/
structure ProxyState where
  request_method : Option String
  request_url_parsed : Option URLParsed
  request_version : Option String
  url_parsed : Option URLParsed
deriving DecidableEq, Repr

/-- The attribute state of a freshly constructed `ProxyServer`. -/
def freshState : ProxyState :=
  { request_method := none, request_url_parsed := none,
    request_version := none, url_parsed := none }

/-- Reading `self.attr`: `AttributeError` when the attribute was never
assigned. -/
def attrRead : Option α → Except PyErr α
  | none => .error .attributeError
  | some a => .ok a

/-- The filesystem tree under the cache root, as a map from path strings to
file contents (later writes shadow earlier ones). -/
abbrev Cache : Type := List (String × String)

/-- File lookup. -/
def cacheRead : Cache → String → Option String
  | [], _ => none
  | (k, v) :: rest, key => if k = key then some v else cacheRead rest key

/-- File write (creating or overwriting). -/
def cacheWrite (c : Cache) (key content : String) : Cache := (key, content) :: c

/-- `Path(path).is_file()`. -/
def cacheMem (c : Cache) (key : String) : Bool := (cacheRead c key).isSome

/-! ## The proxy functions, translated from `proxy.py` -/

/-- `ProxyServer.check_request_validity` (lines 322-357): split on CRLF,
require exactly 3 lines, line 1 stripped equal to `"GET"`, line 3 stripped
starting with `"HTTP/"` and equal to one of the three versions, and
`"http://"` occurring in line 2 stripped. -/
def check_request_validity (request : String) : Bool :=
  let request_split := pySplitCRLF request
  if request_split.length ≠ 3 then false
  else if pyStrip (request_split.getD 0 "") ≠ "GET" then false
  else if strTake 5 (pyStrip (request_split.getD 2 "")) ≠ "HTTP/" then false
  else if pyStrip (request_split.getD 2 "") ≠ "HTTP/1.1" ∧
          pyStrip (request_split.getD 2 "") ≠ "HTTP/1.0" ∧
          pyStrip (request_split.getD 2 "") ≠ "HTTP/0.9" then false
  else if pyIn "http://" (pyStrip (request_split.getD 1 "")) = false then false
  else true

/-- `ProxyServer.parse_request` (lines 298-320): split the whole request on
spaces into method, URL, version (an `IndexError` when there are fewer than
three fields); parse the URL; when it carries no port, replace the netloc
with `netloc + ":80"` and then evaluate `self.url_parsed.geturl()` — a read
of the never-assigned attribute `url_parsed`, hence an `AttributeError`
unless some earlier execution had assigned it. -/
def parse_request (st : ProxyState) (request : String) : Except PyErr ProxyState :=
  match pySplitSpace request with
  | m :: u :: v :: _ =>
    let request_method := pyStrip m
    let request_url := pyStrip u
    let request_version := pyStrip v
    let rup := urlparse request_url
    let st1 : ProxyState :=
      { st with request_method := some request_method,
                request_version := some request_version,
                request_url_parsed := some rup }
    if rup.port = none then
      let rup80 : URLParsed := { rup with netloc := rup.netloc ++ ":80" }
      let st2 : ProxyState := { st1 with request_url_parsed := some rup80 }
      match st2.url_parsed with
      | none => .error .attributeError
      | some u0 => .ok { st2 with url_parsed := some (urlparse (geturl u0)) }
    else .ok st1
  | _ => .error .indexError

/-- `ProxyServer.get_status_code` (lines 571-589): the second
space-delimited field of the first CRLF line, returned as a Python `str`
(an `IndexError` when the first line has no second field). -/
def get_status_code (response : String) : Except PyErr PyVal :=
  let response_split := pySplitCRLF response
  match (pySplitSpace (response_split.getD 0 "")).get? 1 with
  | some code => .ok (.str code)
  | none => .error .indexError

/-- `ProxyServer.add_length_and_cache_to_header` (lines 409-473): find the
first empty CRLF line (`ValueError` when there is none); insert a
`Content-Length` header summing the lengths of the body lines when no
header line contains `"Content-Length"`; insert `"Connection: close"` when
no header line contains it; insert the `Cache-Hit` header; reassemble as
header lines each followed by CRLF, a blank line, then the body lines
concatenated without separators. -/
def add_length_and_cache_to_header (response : String) (in_cache : Bool) :
    Except PyErr String :=
  let response_split := pySplitCRLF response
  match pyIndex response_split "" with
  | none => .error .valueError
  | some last0 =>
    let step1 :=
      if (response_split.take last0).any (fun line => pyIn "Content-Length" line) then
        (response_split, last0)
      else
        let content_length :=
          (response_split.drop (last0 + 1)).foldl (fun acc line => acc + line.length) 0
        (pyInsert response_split last0 ("Content-Length: " ++ natToStr content_length),
         last0 + 1)
    let step2 :=
      if (step1.1.take step1.2).any (fun line => pyIn "Connection: close" line) then
        step1
      else
        (pyInsert step1.1 step1.2 "Connection: close", step1.2 + 1)
    let final :=
      if in_cache then pyInsert step2.1 step2.2 "Cache-Hit: 1"
      else pyInsert step2.1 step2.2 "Cache-Hit: 0"
    .ok (joinLines (final.take (step2.2 + 1)) ++ "\r\n" ++
         concatLines (final.drop (step2.2 + 1)))

/-- The fixed response built by `create_500_response(None)` (lines 375-382). -/
def response500Null : String :=
  "HTTP/1.1 500 Internal Server Error\r\nContent-Length: 0\r\nConnection: close\r\nCache-Hit: 0\r\n\r\n"

/-- Python's `l[0] = x` on a list known to be non-empty. -/
def pySetHead (l : List String) (x : String) : List String :=
  match l with
  | [] => []
  | _ :: rest => x :: rest

/-- `ProxyServer.create_500_response` (lines 359-407): with no response, the
fixed minimal 500; with a response, replace its first CRLF line by the 500
status line, find the first empty line (`ValueError` when absent),
reassemble (lines `0..last` each followed by CRLF, one more CRLF, then the
remaining lines concatenated), and normalize with `in_cache = False`. -/
def create_500_response : Option String → Except PyErr String
  | none => .ok response500Null
  | some response =>
    let response_split := pySetHead (pySplitCRLF response) "HTTP/1.1 500 Internal Server Error"
    match pyIndex response_split "" with
    | none => .error .valueError
    | some last =>
      let response500 :=
        joinLines (response_split.take (last + 1)) ++ "\r\n" ++
        concatLines (response_split.drop (last + 1))
      add_length_and_cache_to_header response500 false

/-- `ProxyServer.check_file_in_cache` (lines 475-493): does a file exist at
`"./cache/" + hostname + path`? -/
def check_file_in_cache (st : ProxyState) (cache : Cache) : Except PyErr Bool :=
  match attrRead st.request_url_parsed with
  | .error e => .error e
  | .ok u => .ok (cacheMem cache ("./cache/" ++ u.hostname ++ u.path))

/-- `ProxyServer.get_response_from_cache` (lines 495-517): read the file at
`"./cache/" + hostname + path`; on any read failure (`readOk = false`, or a
missing file) the bare `except` prints and calls `sys.exit()` — terminating
the process with status 0. -/
def get_response_from_cache (st : ProxyState) (cache : Cache) (readOk : Bool) :
    Except Fail String :=
  match attrRead st.request_url_parsed with
  | .error e => .error (.raised e)
  | .ok u =>
    let path := "./cache/" ++ u.hostname ++ u.path
    if readOk then
      match cacheRead cache path with
      | some content => .ok content
      | none => .error (.exit (pySysExitStatus none))
    else .error (.exit (pySysExitStatus none))

/-- `ProxyServer.store_response_in_cache` (lines 591-633): rebuild the file
path by appending every `'/'`-component of `"./cache/" + hostname + path`
(all but the last followed by `"/"`) onto the literal `"./cache/"` again,
extract the body as the lines after the first empty CRLF line (`ValueError`
when there is none) concatenated without separators, and write it; a write
failure (`writeOk = false`) hits the bare `except`, which calls `sys.exit()`
— terminating the process with status 0. -/
def store_response_in_cache (st : ProxyState) (cache : Cache) (response : String)
    (writeOk : Bool) : Except Fail Cache :=
  match attrRead st.request_url_parsed with
  | .error e => .error (.raised e)
  | .ok u =>
    let path := "./cache/" ++ u.hostname ++ u.path
    let path_split := pySplitSlash path
    let path_to_file :=
      (path_split.dropLast.foldl (fun acc comp => acc ++ comp ++ "/") "./cache/") ++
      path_split.getLastD ""
    let response_split := pySplitCRLF response
    match pyIndex response_split "" with
    | none => .error (.raised .valueError)
    | some last =>
      if writeOk then
        .ok (cacheWrite cache path_to_file (concatLines (response_split.drop (last + 1))))
      else .error (.exit (pySysExitStatus none))

/-- `ProxyServer.send_request_to_server` (lines 519-569). The connect reads
`self.request_url_parsed` inside a `try`, so an unset attribute or a failed
connect both return `None`. After a successful connect the outbound request
line is built outside any `try`: it reads `self.request_method`, then
`self.url_parsed.path` — the never-assigned attribute, an uncaught
`AttributeError` — then the version and hostname. Send/receive failures
return `None`; otherwise the accumulated origin bytes are returned
(`originResponse` stands for that external outcome). -/
def send_request_to_server (st : ProxyState) (connectOk : Bool)
    (originResponse : Option String) : Except PyErr (Option String) :=
  match st.request_url_parsed with
  | none => .ok none
  | some u =>
    if connectOk = false then .ok none
    else
      match attrRead st.request_method with
      | .error e => .error e
      | .ok m =>
        match attrRead st.url_parsed with
        | .error e => .error e
        | .ok up =>
          match attrRead st.request_version with
          | .error e => .error e
          | .ok v =>
            let request :=
              m ++ " " ++ (if up.path ≠ "" then up.path else "/") ++ " " ++ v ++
              "\r\n" ++ "Host: " ++ u.hostname ++ "\r\n" ++ "Connection: close\r\n\r\n"
            let _ := request
            .ok originResponse

/-- `get_port_num` (lines 636-653): `sys.exit()` — status 0 — when no port
argument is supplied; otherwise `int(sys.argv[1])`. -/
def get_port_num (argv : List String) : Except Fail Nat :=
  if argv.length < 2 then .error (.exit (pySysExitStatus none))
  else
    match digitsToNat? (argv.getD 1 "").data with
    | some n => .ok n
    | none => .error (.raised .valueError)

/-! ## The connection handler -/

/-- The external outcomes one connection can encounter. `recvResult = none`
models a failed client receive; `connectOk` the origin connect;
`originResponse = none` a failed origin send/read; `cacheReadOk` /
`cacheWriteOk` the filesystem operations. -/
structure World where
  recvResult : Option String
  connectOk : Bool
  originResponse : Option String
  cacheReadOk : Bool
  cacheWriteOk : Bool

/-- How `handle_request` ends: a normal return, an uncaught exception
propagating out of it, or a `sys.exit` with the given status. -/
inductive Outcome where
  | normal
  | uncaught (e : PyErr)
  | exited (status : Nat)
deriving DecidableEq, Repr

/-- Everything observable about one run of `handle_request`: the responses
sent to the client, whether the client socket was closed, the resulting
cache, whether the cache file was read, whether an origin fetch was
attempted, and how the run ended. -/
structure HandlerResult where
  sent : List String
  closed : Bool
  cache : Cache
  cacheReadDone : Bool
  originContacted : Bool
  outcome : Outcome
deriving DecidableEq, Repr

/-- `ProxyServer.handle_request` (lines 207-296), with the client socket's
`send`s recorded rather than performed. Invalid requests get the fixed 500
and the connection closes; on a hit the cached file is normalized with
`in_cache = True`; on a miss the origin result `None` gets the fixed 500,
and otherwise the handler dispatches on `get_status_code` compared (as a
Python `str`) against the `int`s 200 and 404. -/
def handle_request (st : ProxyState) (cache : Cache) (w : World) : HandlerResult :=
  match w.recvResult with
  | none =>
    { sent := [], closed := true, cache := cache, cacheReadDone := false,
      originContacted := false, outcome := .normal }
  | some request =>
    if check_request_validity request = false then
      { sent := [response500Null], closed := true, cache := cache,
        cacheReadDone := false, originContacted := false, outcome := .normal }
    else
      match parse_request st request with
      | .error e =>
        { sent := [], closed := false, cache := cache, cacheReadDone := false,
          originContacted := false, outcome := .uncaught e }
      | .ok st1 =>
        match check_file_in_cache st1 cache with
        | .error e =>
          { sent := [], closed := false, cache := cache, cacheReadDone := false,
            originContacted := false, outcome := .uncaught e }
        | .ok true =>
          match get_response_from_cache st1 cache w.cacheReadOk with
          | .error (.exit s) =>
            { sent := [], closed := false, cache := cache, cacheReadDone := true,
              originContacted := false, outcome := .exited s }
          | .error (.raised e) =>
            { sent := [], closed := false, cache := cache, cacheReadDone := true,
              originContacted := false, outcome := .uncaught e }
          | .ok cached_response =>
            match add_length_and_cache_to_header cached_response true with
            | .error e =>
              { sent := [], closed := false, cache := cache, cacheReadDone := true,
                originContacted := false, outcome := .uncaught e }
            | .ok mod_response =>
              { sent := [mod_response], closed := true, cache := cache,
                cacheReadDone := true, originContacted := false, outcome := .normal }
        | .ok false =>
          match send_request_to_server st1 w.connectOk w.originResponse with
          | .error e =>
            { sent := [], closed := false, cache := cache, cacheReadDone := false,
              originContacted := true, outcome := .uncaught e }
          | .ok none =>
            { sent := [response500Null], closed := true, cache := cache,
              cacheReadDone := false, originContacted := true, outcome := .normal }
          | .ok (some response_from_server) =>
            match get_status_code response_from_server with
            | .error e =>
              { sent := [], closed := false, cache := cache, cacheReadDone := false,
                originContacted := true, outcome := .uncaught e }
            | .ok status_code =>
              if pyEq status_code (.int 200) then
                match store_response_in_cache st1 cache response_from_server w.cacheWriteOk with
                | .error (.exit s) =>
                  { sent := [], closed := false, cache := cache, cacheReadDone := false,
                    originContacted := true, outcome := .exited s }
                | .error (.raised e) =>
                  { sent := [], closed := false, cache := cache, cacheReadDone := false,
                    originContacted := true, outcome := .uncaught e }
                | .ok cache1 =>
                  match add_length_and_cache_to_header response_from_server false with
                  | .error e =>
                    { sent := [], closed := false, cache := cache1, cacheReadDone := false,
                      originContacted := true, outcome := .uncaught e }
                  | .ok response =>
                    { sent := [response], closed := true, cache := cache1,
                      cacheReadDone := false, originContacted := true, outcome := .normal }
              else if pyEq status_code (.int 404) then
                match add_length_and_cache_to_header response_from_server false with
                | .error e =>
                  { sent := [], closed := false, cache := cache, cacheReadDone := false,
                    originContacted := true, outcome := .uncaught e }
                | .ok response =>
                  { sent := [response], closed := true, cache := cache,
                    cacheReadDone := false, originContacted := true, outcome := .normal }
              else
                match create_500_response (some response_from_server) with
                | .error e =>
                  { sent := [], closed := false, cache := cache, cacheReadDone := false,
                    originContacted := true, outcome := .uncaught e }
                | .ok response =>
                  { sent := [response], closed := true, cache := cache,
                    cacheReadDone := false, originContacted := true, outcome := .normal }

/-! ## Derived views of a wire response -/

/-- The index of the first empty CRLF line of a response. -/
def firstBlankLine (s : String) : Option Nat := pyIndex (pySplitCRLF s) ""

/-- The header lines of a wire response: the CRLF lines before the first
empty one (all lines when there is no empty line). -/
def respHeaders (s : String) : List String :=
  match firstBlankLine s with
  | some n => (pySplitCRLF s).take n
  | none => pySplitCRLF s

/-- The body of a wire response: the text after the first empty CRLF line
(empty when there is no empty line). -/
def respBody (s : String) : String :=
  match firstBlankLine s with
  | some n => intercalateCRLF ((pySplitCRLF s).drop (n + 1))
  | none => ""

/-! ## List helper lemmas -/

theorem take_len_append (hs t : List String) : (hs ++ t).take hs.length = hs := by
  induction hs with
  | nil => rfl
  | cons x xs ih => simp [ih]

theorem drop_len_append (hs t : List String) : (hs ++ t).drop hs.length = t := by
  induction hs with
  | nil => rfl
  | cons x xs ih => simp [ih]

theorem take_len_succ_append (hs t : List String) (x : String) :
    (hs ++ x :: t).take (hs.length + 1) = hs ++ [x] := by
  induction hs with
  | nil => rfl
  | cons y ys ih => simp only [List.cons_append, List.length_cons, List.take_succ_cons, ih]

theorem drop_len_succ_append (hs t : List String) (x : String) :
    (hs ++ x :: t).drop (hs.length + 1) = t := by
  induction hs with
  | nil => rfl
  | cons y ys ih => simp only [List.cons_append, List.length_cons, List.drop_succ_cons, ih]

theorem pyInsert_append (hs t : List String) (x : String) :
    pyInsert (hs ++ t) hs.length x = hs ++ x :: t := by
  induction hs with
  | nil => cases t <;> rfl
  | cons y ys ih => simp [pyInsert, ih]

theorem pyIndex_some (l : List String) (y : String) (n : Nat)
    (h : pyIndex l y = some n) :
    l = l.take n ++ y :: l.drop (n + 1) ∧ (l.take n).length = n ∧
      ∀ z ∈ l.take n, z ≠ y := by
  induction l generalizing n with
  | nil => simp [pyIndex] at h
  | cons x xs ih =>
    by_cases hx : x = y
    · simp only [pyIndex, if_pos hx, Option.some.injEq] at h
      subst h
      simp [hx]
    · simp only [pyIndex, if_neg hx] at h
      obtain ⟨m, hm, rfl⟩ : ∃ m, pyIndex xs y = some m ∧ m + 1 = n := by
        cases hp : pyIndex xs y with
        | none => rw [hp] at h; simp at h
        | some m => rw [hp] at h; simp at h; exact ⟨m, rfl, h⟩
      obtain ⟨h1, h2, h3⟩ := ih m hm
      refine ⟨?_, ?_, ?_⟩
      · simpa using congrArg (x :: ·) h1
      · simpa using h2
      · intro z hz
        rcases (by simpa using hz : z = x ∨ z ∈ xs.take m) with rfl | hz'
        · exact hx
        · exact h3 z hz'

theorem pyIndex_none_iff (l : List String) (y : String) :
    pyIndex l y = none ↔ y ∉ l := by
  induction l with
  | nil => simp [pyIndex]
  | cons x xs ih =>
    by_cases hx : x = y
    · simp [pyIndex, hx]
    · simp [pyIndex, hx, ih, Ne.symm hx]

theorem pyIndex_append (hs t : List String) (y : String)
    (hne : ∀ z ∈ hs, z ≠ y) :
    pyIndex (hs ++ y :: t) y = some hs.length := by
  induction hs with
  | nil => simp [pyIndex]
  | cons x xs ih =>
    have hx : x ≠ y := hne x (by simp)
    have ih' := ih (fun z hz => hne z (by simp [hz]))
    simp [pyIndex, hx, ih']

/-! ## String glue lemmas -/

theorem strMkData (s : String) : String.mk s.data = s := by cases s; rfl

theorem strExt (s t : String) (h : s.data = t.data) : s = t := by
  cases s; cases t; exact congrArg String.mk h

theorem strNilAppend (s : String) : "" ++ s = s := by
  apply strExt; simp [String.data_append]

theorem concatLines_cons_empty (bs : List String) :
    concatLines ("" :: bs) = concatLines bs := by
  simp [concatLines, strNilAppend]

/-! ## Lemmas about the CRLF splitter -/

theorem splitCRLFChars_ne_nil (l : List Char) : splitCRLFChars l ≠ [] := by
  match l with
  | [] => simp [splitCRLFChars]
  | [c] => simp [splitCRLFChars]
  | c :: d :: rest =>
    simp only [splitCRLFChars]
    split
    · simp
    · split <;> simp

theorem splitCRLFChars_head_shape (d : Char) (rest : List Char) :
    ∃ m0 ms, splitCRLFChars (d :: rest) = m0 :: ms ∧
      (m0 = [] ∨ ∃ t, m0 = d :: t) := by
  match rest with
  | [] => exact ⟨[d], [], rfl, Or.inr ⟨[], rfl⟩⟩
  | e :: rest' =>
    simp only [splitCRLFChars]
    split
    · exact ⟨[], _, rfl, Or.inl rfl⟩
    · split
      · next heq => exact absurd heq (splitCRLFChars_ne_nil _)
      · next m ms _ => exact ⟨_, _, rfl, Or.inr ⟨m, rfl⟩⟩

theorem splitCRLFChars_head_nil (l : List Char) (ms : List (List Char))
    (h : splitCRLFChars l = [] :: ms) :
    l = [] ∨ listPrefixEq ['\r', '\n'] l = true := by
  match l with
  | [] => exact Or.inl rfl
  | [c] => simp [splitCRLFChars] at h
  | c :: d :: rest =>
    simp only [splitCRLFChars] at h
    split at h
    · next hcd => obtain ⟨rfl, rfl⟩ := hcd; right; rfl
    · split at h <;> simp_all

/-- The characteristic equation of the splitter: a separator after a
separator-free chunk cuts exactly there. -/
theorem split_append_crlf :
    ∀ (l rest : List Char), listHasSub ['\r', '\n'] l = false →
      splitCRLFChars (l ++ '\r' :: '\n' :: rest) = l :: splitCRLFChars rest
  | [], rest, _ => by simp [splitCRLFChars]
  | [c], rest, h => by
    have hc : ¬(c = '\r' ∧ '\r' = '\n') := by rintro ⟨rfl, h2⟩; exact absurd h2 (by decide)
    have hinner : splitCRLFChars ('\r' :: '\n' :: rest) = [] :: splitCRLFChars rest := by
      simp [splitCRLFChars]
    simp only [List.cons_append, List.nil_append]
    rw [splitCRLFChars.eq_3, if_neg hc, hinner]
  | c :: c2 :: l', rest, h => by
    have h' : (listPrefixEq ['\r', '\n'] (c :: c2 :: l') || listHasSub ['\r', '\n'] (c2 :: l')) = false := h
    rw [Bool.or_eq_false_iff] at h'
    obtain ⟨h1, h2⟩ := h'
    have hcd : ¬(c = '\r' ∧ c2 = '\n') := by
      rintro ⟨rfl, rfl⟩; simp [listPrefixEq] at h1
    have ih := split_append_crlf (c2 :: l') rest h2
    simp only [List.cons_append] at ih ⊢
    rw [splitCRLFChars, if_neg hcd, ih]

/-! ## Lemmas about substring search -/

theorem listHasSub_cons_false (sub : List Char) (c : Char) (rest : List Char)
    (h : listHasSub sub (c :: rest) = false) :
    listPrefixEq sub (c :: rest) = false ∧ listHasSub sub rest = false := by
  have h' : (listPrefixEq sub (c :: rest) || listHasSub sub rest) = false := h
  rwa [Bool.or_eq_false_iff] at h'

theorem mem_of_listPrefixEq :
    ∀ (sub l : List Char), listPrefixEq sub l = true → ∀ c ∈ sub, c ∈ l := by
  intro sub
  induction sub with
  | nil => simp
  | cons a as ih =>
    intro l h c hc
    match l, h with
    | b :: bs, h =>
      have h' : (a = b && listPrefixEq as bs) = true := h
      rw [Bool.and_eq_true] at h'
      obtain ⟨h1, h2⟩ := h'
      rcases List.mem_cons.1 hc with rfl | hc'
      · simp [of_decide_eq_true h1]
      · exact List.mem_cons_of_mem _ (ih bs h2 c hc')

theorem mem_of_listHasSub (sub : List Char) :
    ∀ (l : List Char), listHasSub sub l = true → ∀ c ∈ sub, c ∈ l := by
  intro l
  induction l with
  | nil =>
    intro h c hc
    simp only [listHasSub, List.isEmpty_iff] at h
    simp [h] at hc
  | cons c' rest ih =>
    intro h c hc
    have h' : (listPrefixEq sub (c' :: rest) || listHasSub sub rest) = true := h
    rcases Bool.or_eq_true_iff.1 h' with hp | hs
    · exact mem_of_listPrefixEq sub _ hp c hc
    · exact List.mem_cons_of_mem _ (ih hs c hc)

theorem listPrefixEq_refl : ∀ l : List Char, listPrefixEq l l = true := by
  intro l
  induction l with
  | nil => rfl
  | cons a as ih => simp [listPrefixEq, ih]

theorem listHasSub_self (l : List Char) : listHasSub l l = true := by
  cases l with
  | nil => rfl
  | cons c rest => simp [listHasSub, listPrefixEq_refl]

/-! ## No line produced by the splitter contains a separator -/

theorem noCRLF_mem_split :
    ∀ (l : List Char), ∀ m ∈ splitCRLFChars l, listHasSub ['\r', '\n'] m = false
  | [] => by intro m hm; simp [splitCRLFChars] at hm; simp [hm, listHasSub]
  | [c] => by
    intro m hm
    simp [splitCRLFChars] at hm
    simp [hm, listHasSub, listPrefixEq]
  | c :: d :: rest => by
    intro m hm
    by_cases hcd : c = '\r' ∧ d = '\n'
    · rw [splitCRLFChars.eq_3, if_pos hcd] at hm
      rcases List.mem_cons.1 hm with rfl | hm'
      · simp [listHasSub]
      · exact noCRLF_mem_split rest m hm'
    · obtain ⟨m0, ms, hsp, hshape⟩ := splitCRLFChars_head_shape d rest
      rw [splitCRLFChars.eq_3, if_neg hcd, hsp] at hm
      rcases List.mem_cons.1 hm with rfl | hm'
      · have hm0 : listHasSub ['\r', '\n'] m0 = false :=
          noCRLF_mem_split (d :: rest) m0 (by rw [hsp]; exact List.mem_cons_self _ _)
        have hpre : listPrefixEq ['\r', '\n'] (c :: m0) = false := by
          by_cases hc : c = '\r'
          · subst hc
            rcases hshape with rfl | ⟨t, rfl⟩
            · simp [listPrefixEq]
            · have hd : d ≠ '\n' := fun hd => hcd ⟨rfl, hd⟩
              have hd' : ('\n' : Char) ≠ d := fun h => hd h.symm
              simp [listPrefixEq, hd, hd']
          · have hc' : ('\r' : Char) ≠ c := fun h => hc h.symm
            simp [listPrefixEq, hc, hc']
        have : listHasSub ['\r', '\n'] (c :: m0) =
            (listPrefixEq ['\r', '\n'] (c :: m0) || listHasSub ['\r', '\n'] m0) := rfl
        rw [this, hpre, hm0]
        rfl
      · exact noCRLF_mem_split (d :: rest) m (by rw [hsp]; exact List.mem_cons_of_mem _ hm')

/-! ## Splitting is inverted by joining with CRLF -/

/-- Character-level counterpart of `intercalateCRLF`. -/
def interChars : List (List Char) → List Char
  | [] => []
  | [l] => l
  | l :: l' :: ls => l ++ '\r' :: '\n' :: interChars (l' :: ls)

theorem interChars_split : ∀ l : List Char, interChars (splitCRLFChars l) = l
  | [] => rfl
  | [c] => rfl
  | c :: d :: rest => by
    by_cases hcd : c = '\r' ∧ d = '\n'
    · obtain ⟨rfl, rfl⟩ := hcd
      have ih := interChars_split rest
      rw [splitCRLFChars.eq_3, if_pos ⟨rfl, rfl⟩]
      match hsp : splitCRLFChars rest with
      | [] => exact absurd hsp (splitCRLFChars_ne_nil rest)
      | m :: ms =>
        rw [hsp] at ih
        calc interChars ([] :: m :: ms) = '\r' :: '\n' :: interChars (m :: ms) := rfl
          _ = '\r' :: '\n' :: rest := by rw [ih]
    · have ih := interChars_split (d :: rest)
      rw [splitCRLFChars.eq_3, if_neg hcd]
      match hsp : splitCRLFChars (d :: rest) with
      | [] => exact absurd hsp (splitCRLFChars_ne_nil _)
      | m :: ms =>
        rw [hsp] at ih
        cases ms with
        | nil =>
          have hm : m = d :: rest := ih
          simp [interChars, hm]
        | cons m2 ms2 =>
          calc interChars ((c :: m) :: m2 :: ms2)
              = c :: (m ++ '\r' :: '\n' :: interChars (m2 :: ms2)) := rfl
            _ = c :: interChars (m :: m2 :: ms2) := rfl
            _ = c :: d :: rest := by rw [ih]

/-! ## When the splitter produces no empty line -/


theorem endsCRLFChars_cons (c d e : Char) (l : List Char) :
    endsCRLFChars (c :: d :: e :: l) = endsCRLFChars (d :: e :: l) := rfl

/-- Every element after the first produced by the splitter is non-empty,
provided the input has no doubled CRLF and no trailing CRLF. -/
theorem split_tail_ne_nil :
    ∀ (l : List Char), listHasSub ['\r', '\n', '\r', '\n'] l = false →
      endsCRLFChars l = false → ∀ m ∈ (splitCRLFChars l).tail, m ≠ []
  | [] => by intro _ _ m hm; simp [splitCRLFChars] at hm
  | [c] => by intro _ _ m hm; simp [splitCRLFChars] at hm
  | c :: d :: rest => by
    intro hsub hend m hm
    by_cases hcd : c = '\r' ∧ d = '\n'
    · obtain ⟨rfl, rfl⟩ := hcd
      rw [splitCRLFChars.eq_3, if_pos ⟨rfl, rfl⟩] at hm
      simp only [List.tail_cons] at hm
      rcases rest with _ | ⟨e, _ | ⟨f, rest'⟩⟩
      · simp [endsCRLFChars] at hend
      · simp only [splitCRLFChars] at hm
        rcases List.mem_singleton.1 hm with rfl
        simp
      · obtain ⟨m0, ms, hsp, _⟩ := splitCRLFChars_head_shape e (f :: rest')
        rw [hsp] at hm
        have hsub' : listHasSub ['\r', '\n', '\r', '\n'] (e :: f :: rest') = false :=
          (listHasSub_cons_false _ _ _
            (listHasSub_cons_false _ _ _ hsub).2).2
        have hend' : endsCRLFChars (e :: f :: rest') = false := by
          rw [endsCRLFChars_cons, endsCRLFChars_cons] at hend
          exact hend
        rcases List.mem_cons.1 hm with rfl | hm'
        · intro hm0nil
          subst hm0nil
          rcases splitCRLFChars_head_nil _ _ hsp with h | h
          · exact absurd h (by simp)
          · have hpre0 := (listHasSub_cons_false _ _ _ hsub).1
            have hexp : listPrefixEq ['\r', '\n', '\r', '\n'] ('\r' :: '\n' :: e :: f :: rest') =
                listPrefixEq ['\r', '\n'] (e :: f :: rest') := by
              simp [listPrefixEq]
            rw [hexp, h] at hpre0
            cases hpre0
        · exact split_tail_ne_nil (e :: f :: rest') hsub' hend' m (by rw [hsp]; exact hm')
    · obtain ⟨m0, ms, hsp, _⟩ := splitCRLFChars_head_shape d rest
      rw [splitCRLFChars.eq_3, if_neg hcd, hsp] at hm
      have hm' : m ∈ ms := by
        have htl : ((c :: m0) :: ms).tail = ms := rfl
        rw [← htl]
        exact hm
      have hsub' : listHasSub ['\r', '\n', '\r', '\n'] (d :: rest) = false :=
        (listHasSub_cons_false _ _ _ hsub).2
      have hend' : endsCRLFChars (d :: rest) = false := by
        rcases rest with _ | ⟨e, rest'⟩
        · rfl
        · rw [endsCRLFChars_cons] at hend; exact hend
      exact split_tail_ne_nil (d :: rest) hsub' hend' m (by rw [hsp]; exact hm')

/-- On a string with no empty CRLF line — non-empty, no doubled CRLF, not
starting and not ending with CRLF — the splitter produces no empty piece. -/
theorem nil_not_mem_split (l : List Char) (h0 : l ≠ [])
    (hsub : listHasSub ['\r', '\n', '\r', '\n'] l = false)
    (hpre : listPrefixEq ['\r', '\n'] l = false)
    (hend : endsCRLFChars l = false) :
    [] ∉ splitCRLFChars l := by
  intro hmem
  rcases hsp : splitCRLFChars l with _ | ⟨m0, ms⟩
  · exact splitCRLFChars_ne_nil l hsp
  · rw [hsp] at hmem
    rcases List.mem_cons.1 hmem with hm0 | htl
    · rw [← hm0] at hsp
      rcases splitCRLFChars_head_nil l ms hsp with h | h
      · exact h0 h
      · rw [h] at hpre; cases hpre
    · exact split_tail_ne_nil l hsub hend [] (by rw [hsp]; exact htl) rfl

/-! ## Digits of `natToStr` -/

theorem natDigits_isDigit :
    ∀ (fuel n : Nat) (c : Char), c ∈ natDigits fuel n → c.isDigit = true := by
  intro fuel
  induction fuel with
  | zero => intro n c hc; simp [natDigits] at hc
  | succ fuel ih =>
    intro n c hc
    rw [natDigits] at hc
    by_cases hn : n < 10
    · rw [if_pos hn] at hc
      rcases List.mem_singleton.1 hc with rfl
      interval_cases n <;> decide
    · rw [if_neg hn] at hc
      rcases List.mem_append.1 hc with h | h
      · exact ih _ _ h
      · rcases List.mem_singleton.1 h with rfl
        have h10 : n % 10 < 10 := Nat.mod_lt _ (by norm_num)
        set m := n % 10 with hm
        interval_cases m <;> decide

theorem not_digit_not_mem_natToStr (c : Char) (hc : c.isDigit = false) (k : Nat) :
    c ∉ (natToStr k).data := fun hmem =>
  by rw [natDigits_isDigit (k + 1) k c hmem] at hc; cases hc

/-! ## Facts about the inserted Content-Length line -/

theorem char_not_mem_CL (c : Char) (hc : c.isDigit = false)
    (hlit : c ∉ ("Content-Length: " : String).data) (k : Nat) :
    c ∉ ("Content-Length: " ++ natToStr k).data := by
  rw [String.data_append]
  intro hmem
  rcases List.mem_append.1 hmem with h | h
  · exact hlit h
  · exact not_digit_not_mem_natToStr c hc k h

theorem pyIn_conn_CL (k : Nat) :
    pyIn "Connection: close" ("Content-Length: " ++ natToStr k) = false := by
  by_contra hne
  have htrue : pyIn "Connection: close" ("Content-Length: " ++ natToStr k) = true := by
    revert hne; cases pyIn "Connection: close" ("Content-Length: " ++ natToStr k) <;> simp
  have hmem := mem_of_listHasSub _ _ htrue 'c' (by decide)
  exact char_not_mem_CL 'c' (by decide) (by decide) k hmem

theorem noCRLF_CL (k : Nat) :
    pyIn "\r\n" ("Content-Length: " ++ natToStr k) = false := by
  by_contra hne
  have htrue : pyIn "\r\n" ("Content-Length: " ++ natToStr k) = true := by
    revert hne; cases pyIn "\r\n" ("Content-Length: " ++ natToStr k) <;> simp
  have hmem := mem_of_listHasSub _ _ htrue '\r' (by decide)
  exact char_not_mem_CL '\r' (by decide) (by decide) k hmem

theorem CL_ne_empty (k : Nat) : ("Content-Length: " ++ natToStr k) ≠ "" := by
  intro h
  have := congrArg String.data h
  rw [String.data_append] at this
  have : ("Content-Length: " : String).data ++ (natToStr k).data = [] := this
  rcases List.append_eq_nil.1 this with ⟨h1, _⟩
  exact absurd h1 (by decide)

theorem CL_ne_conn (k : Nat) :
    ("Content-Length: " ++ natToStr k) ≠ "Connection: close" := by
  intro h
  have := pyIn_conn_CL k
  rw [h] at this
  unfold pyIn at this
  rw [listHasSub_self] at this
  cases this

/-! ## String-level split/join glue -/

theorem pyIn_CRLF_data (s : String) :
    pyIn "\r\n" s = listHasSub ['\r', '\n'] s.data := rfl

theorem pySplitCRLF_lines_noCRLF (s : String) :
    ∀ l ∈ pySplitCRLF s, pyIn "\r\n" l = false := by
  intro l hl
  unfold pySplitCRLF at hl
  rcases List.mem_map.1 hl with ⟨m, hm, rfl⟩
  rw [pyIn_CRLF_data]
  exact noCRLF_mem_split s.data m hm

theorem pySplitCRLF_join (HS : List String) (body : String)
    (h : ∀ l ∈ HS, pyIn "\r\n" l = false) :
    pySplitCRLF (joinLines HS ++ "\r\n" ++ body) = HS ++ "" :: pySplitCRLF body := by
  induction HS with
  | nil =>
    have hdata : (joinLines [] ++ "\r\n" ++ body).data = '\r' :: '\n' :: body.data := by
      simp [joinLines, String.data_append]
    unfold pySplitCRLF
    rw [hdata]
    have : splitCRLFChars ('\r' :: '\n' :: body.data) = [] :: splitCRLFChars body.data := by
      simp [splitCRLFChars]
    rw [this]
    rfl
  | cons l LS ih =>
    have hdata : (joinLines (l :: LS) ++ "\r\n" ++ body).data =
        l.data ++ '\r' :: '\n' :: (joinLines LS ++ "\r\n" ++ body).data := by
      simp [joinLines, String.data_append]
    unfold pySplitCRLF
    rw [hdata, split_append_crlf l.data _ (by
      have := h l (List.mem_cons_self _ _)
      rwa [pyIn_CRLF_data] at this)]
    have ih' := ih (fun x hx => h x (List.mem_cons_of_mem _ hx))
    unfold pySplitCRLF at ih'
    simp only [List.map_cons, strMkData]
    rw [ih']
    rfl

theorem intercalateCRLF_map_mk :
    ∀ L : List (List Char), intercalateCRLF (L.map String.mk) = String.mk (interChars L)
  | [] => rfl
  | [l] => rfl
  | l :: l' :: ls => by
    have ih := intercalateCRLF_map_mk (l' :: ls)
    simp only [List.map_cons] at ih ⊢
    calc intercalateCRLF (String.mk l :: String.mk l' :: ls.map String.mk)
        = String.mk l ++ "\r\n" ++ intercalateCRLF (String.mk l' :: ls.map String.mk) := rfl
      _ = String.mk l ++ "\r\n" ++ String.mk (interChars (l' :: ls)) := by rw [ih]
      _ = String.mk (interChars (l :: l' :: ls)) := by
          apply strExt
          simp [String.data_append, interChars]

theorem intercalate_pySplit (s : String) : intercalateCRLF (pySplitCRLF s) = s := by
  unfold pySplitCRLF
  rw [intercalateCRLF_map_mk, interChars_split]
/-! ## Characterizing the normalizer -/

theorem pyInsert_append_one (hs t : List String) (x y : String) :
    pyInsert (hs ++ x :: t) (hs.length + 1) y = hs ++ x :: y :: t := by
  induction hs with
  | nil => cases t <;> rfl
  | cons a as ih => simp [pyInsert, ih]

theorem pyInsert_append_two (hs t : List String) (x1 x2 y : String) :
    pyInsert (hs ++ x1 :: x2 :: t) (hs.length + 1 + 1) y = hs ++ x1 :: x2 :: y :: t := by
  induction hs with
  | nil => cases t <;> rfl
  | cons a as ih => simp [pyInsert, ih]

theorem take_len_succ2_append (hs t : List String) (x1 x2 : String) :
    (hs ++ x1 :: x2 :: t).take (hs.length + 1 + 1) = hs ++ [x1, x2] := by
  induction hs with
  | nil => rfl
  | cons a as ih => simp only [List.cons_append, List.length_cons, List.take_succ_cons, ih]

theorem take_len_succ3_append (hs t : List String) (x1 x2 x3 : String) :
    (hs ++ x1 :: x2 :: x3 :: t).take (hs.length + 1 + 1 + 1) = hs ++ [x1, x2, x3] := by
  induction hs with
  | nil => rfl
  | cons a as ih => simp only [List.cons_append, List.length_cons, List.take_succ_cons, ih]

theorem drop_len_succ2_append (hs t : List String) (x1 x2 : String) :
    (hs ++ x1 :: x2 :: t).drop (hs.length + 1 + 1) = t := by
  induction hs with
  | nil => rfl
  | cons a as ih => simp only [List.cons_append, List.length_cons, List.drop_succ_cons, ih]

theorem drop_len_succ3_append (hs t : List String) (x1 x2 x3 : String) :
    (hs ++ x1 :: x2 :: x3 :: t).drop (hs.length + 1 + 1 + 1) = t := by
  induction hs with
  | nil => rfl
  | cons a as ih => simp only [List.cons_append, List.length_cons, List.drop_succ_cons, ih]

/-- The header-line list `add_length_and_cache_to_header` ends up with, for
a response with header lines `hs` and body lines `bs`. -/
def normHeaders (hs bs : List String) (in_cache : Bool) : List String :=
  let hs1 := if (hs.any fun line => pyIn "Content-Length" line) = true then hs
             else hs ++ ["Content-Length: " ++
               natToStr (bs.foldl (fun acc line => acc + line.length) 0)]
  let hs2 := if (hs1.any fun line => pyIn "Connection: close" line) = true then hs1
             else hs1 ++ ["Connection: close"]
  hs2 ++ [if in_cache then "Cache-Hit: 1" else "Cache-Hit: 0"]

theorem add_length_eq (resp : String) (b : Bool) (n : Nat)
    (h : pyIndex (pySplitCRLF resp) "" = some n) :
    add_length_and_cache_to_header resp b =
      .ok (joinLines (normHeaders ((pySplitCRLF resp).take n)
            ((pySplitCRLF resp).drop (n + 1)) b) ++ "\r\n" ++
           concatLines ((pySplitCRLF resp).drop (n + 1))) := by
  obtain ⟨hdec, hlen, hne⟩ := pyIndex_some _ _ _ h
  obtain ⟨hs, hhs⟩ : ∃ hs, (pySplitCRLF resp).take n = hs := ⟨_, rfl⟩
  obtain ⟨bs, hbs⟩ : ∃ bs, (pySplitCRLF resp).drop (n + 1) = bs := ⟨_, rfl⟩
  rw [hhs, hbs] at hdec
  rw [hhs] at hlen
  simp only [add_length_and_cache_to_header, h]
  rw [hhs, hbs, hdec, ← hlen]
  by_cases hCL : (hs.any fun line => pyIn "Content-Length" line) = true
  · simp only [if_pos hCL]
    rw [take_len_append]
    by_cases hConn : (hs.any fun line => pyIn "Connection: close" line) = true
    · simp only [if_pos hConn]
      cases b <;>
        simp only [normHeaders, if_pos hCL, if_pos hConn, pyInsert_append,
          take_len_succ_append, drop_len_succ_append, concatLines_cons_empty,
          Bool.false_eq_true, if_false, if_true]
    · simp only [if_neg hConn]
      rw [pyInsert_append]
      cases b <;>
        simp only [normHeaders, if_pos hCL, if_neg hConn, pyInsert_append_one,
          take_len_succ2_append, drop_len_succ2_append, concatLines_cons_empty,
          Bool.false_eq_true, if_false, if_true, List.append_assoc,
          List.cons_append, List.nil_append]
  · simp only [if_neg hCL]
    rw [pyInsert_append, take_len_succ_append]
    by_cases hConn : ((hs ++ ["Content-Length: " ++
        natToStr (bs.foldl (fun acc line => acc + line.length) 0)]).any
        fun line => pyIn "Connection: close" line) = true
    · simp only [if_pos hConn]
      cases b <;>
        simp only [normHeaders, if_neg hCL, if_pos hConn, pyInsert_append_one,
          take_len_succ2_append, drop_len_succ2_append, concatLines_cons_empty,
          Bool.false_eq_true, if_false, if_true, List.append_assoc,
          List.cons_append, List.nil_append]
    · simp only [if_neg hConn]
      cases b <;>
        simp only [normHeaders, if_neg hCL, if_neg hConn, pyInsert_append_one,
          pyInsert_append_two, take_len_succ3_append, drop_len_succ3_append,
          concatLines_cons_empty, Bool.false_eq_true, if_false, if_true,
          List.append_assoc, List.cons_append, List.nil_append]

/-! ## Headers and body of the normalized output -/

theorem respParts (HS : List String) (body : String)
    (h1 : ∀ l ∈ HS, pyIn "\r\n" l = false) (h2 : ∀ l ∈ HS, l ≠ "") :
    respHeaders (joinLines HS ++ "\r\n" ++ body) = HS ∧
    respBody (joinLines HS ++ "\r\n" ++ body) = body := by
  have hsplit := pySplitCRLF_join HS body h1
  have hidx : firstBlankLine (joinLines HS ++ "\r\n" ++ body) = some HS.length := by
    unfold firstBlankLine
    rw [hsplit]
    exact pyIndex_append HS (pySplitCRLF body) "" h2
  constructor
  · unfold respHeaders
    simp only [hidx, hsplit]
    exact take_len_append HS _
  · unfold respBody
    simp only [hidx, hsplit]
    rw [drop_len_succ_append, intercalate_pySplit]

theorem normHeaders_mem (hs bs : List String) (b : Bool) (l : String)
    (hl : l ∈ normHeaders hs bs b) :
    l ∈ hs ∨ (∃ k, l = "Content-Length: " ++ natToStr k) ∨ l = "Connection: close" ∨
      l = "Cache-Hit: 1" ∨ l = "Cache-Hit: 0" := by
  simp only [normHeaders] at hl
  by_cases hCL : (hs.any fun line => pyIn "Content-Length" line) = true
  · rw [if_pos hCL] at hl
    by_cases hConn : (hs.any fun line => pyIn "Connection: close" line) = true
    · rw [if_pos hConn] at hl
      rcases List.mem_append.1 hl with h | h
      · exact Or.inl h
      · rcases List.mem_singleton.1 h with rfl
        cases b <;> simp
    · rw [if_neg hConn] at hl
      rcases List.mem_append.1 hl with h | h
      · rcases List.mem_append.1 h with h' | h'
        · exact Or.inl h'
        · rcases List.mem_singleton.1 h' with rfl
          simp
      · rcases List.mem_singleton.1 h with rfl
        cases b <;> simp
  · rw [if_neg hCL] at hl
    by_cases hConn : ((hs ++ ["Content-Length: " ++
        natToStr (bs.foldl (fun acc line => acc + line.length) 0)]).any
        fun line => pyIn "Connection: close" line) = true
    · rw [if_pos hConn] at hl
      rcases List.mem_append.1 hl with h | h
      · rcases List.mem_append.1 h with h' | h'
        · exact Or.inl h'
        · rcases List.mem_singleton.1 h' with rfl
          exact Or.inr (Or.inl ⟨_, rfl⟩)
      · rcases List.mem_singleton.1 h with rfl
        cases b <;> simp
    · rw [if_neg hConn] at hl
      rcases List.mem_append.1 hl with h | h
      · rcases List.mem_append.1 h with h' | h'
        · rcases List.mem_append.1 h' with h'' | h''
          · exact Or.inl h''
          · rcases List.mem_singleton.1 h'' with rfl
            exact Or.inr (Or.inl ⟨_, rfl⟩)
        · rcases List.mem_singleton.1 h' with rfl
          simp
      · rcases List.mem_singleton.1 h with rfl
        cases b <;> simp

theorem normHeaders_noCRLF (hs bs : List String) (b : Bool)
    (h : ∀ l ∈ hs, pyIn "\r\n" l = false) :
    ∀ l ∈ normHeaders hs bs b, pyIn "\r\n" l = false := by
  intro l hl
  rcases normHeaders_mem hs bs b l hl with hmem | ⟨k, rfl⟩ | rfl | rfl | rfl
  · exact h l hmem
  · exact noCRLF_CL k
  · decide
  · decide
  · decide

theorem normHeaders_ne_empty (hs bs : List String) (b : Bool)
    (h : ∀ l ∈ hs, l ≠ "") :
    ∀ l ∈ normHeaders hs bs b, l ≠ "" := by
  intro l hl
  rcases normHeaders_mem hs bs b l hl with hmem | ⟨k, rfl⟩ | rfl | rfl | rfl
  · exact h l hmem
  · exact CL_ne_empty k
  · decide
  · decide
  · decide

/-- The combined shape of a successful normalization: the result of
`add_length_and_cache_to_header`, its header lines, and its body. -/
theorem add_length_parts (resp : String) (b : Bool) (n : Nat)
    (h : pyIndex (pySplitCRLF resp) "" = some n) :
    ∃ out, add_length_and_cache_to_header resp b = .ok out ∧
      respHeaders out = normHeaders ((pySplitCRLF resp).take n)
        ((pySplitCRLF resp).drop (n + 1)) b ∧
      respBody out = concatLines ((pySplitCRLF resp).drop (n + 1)) := by
  obtain ⟨_, _, hne⟩ := pyIndex_some _ _ _ h
  have hnoCRLF : ∀ l ∈ (pySplitCRLF resp).take n, pyIn "\r\n" l = false :=
    fun l hl => pySplitCRLF_lines_noCRLF resp l (List.take_subset n _ hl)
  obtain ⟨hH, hB⟩ := respParts
    (normHeaders ((pySplitCRLF resp).take n) ((pySplitCRLF resp).drop (n + 1)) b)
    (concatLines ((pySplitCRLF resp).drop (n + 1)))
    (normHeaders_noCRLF _ _ _ hnoCRLF)
    (normHeaders_ne_empty _ _ _ hne)
  exact ⟨_, add_length_eq resp b n h, hH, hB⟩

/-! ## Counting header lines, body lengths, blank-line membership -/

theorem countEq_append (a c : List String) (x : String) :
    countEq (a ++ c) x = countEq a x + countEq c x := by
  simp [countEq, List.filter_append]

theorem countEq_single_ne (y x : String) (h : y ≠ x) : countEq [y] x = 0 := by
  simp [countEq, List.filter, h]

theorem countEq_single_eq (x : String) : countEq [x] x = 1 := by
  simp [countEq, List.filter]

theorem any_conn_over_CL (hs : List String) (k : Nat) :
    ((hs ++ ["Content-Length: " ++ natToStr k]).any
      fun line => pyIn "Connection: close" line) =
    (hs.any fun line => pyIn "Connection: close" line) := by
  simp [List.any_append, pyIn_conn_CL k]

theorem foldl_len (bs : List String) :
    ∀ a : Nat, bs.foldl (fun acc line => acc + line.length) a =
      a + (concatLines bs).length := by
  induction bs with
  | nil => intro a; simp [concatLines]
  | cons l ls ih =>
    intro a
    simp only [List.foldl_cons, concatLines, ih, String.length_append]
    omega

theorem concatLines_length_cons (l : String) (ls : List String) :
    (concatLines (l :: ls)).length = l.length + (concatLines ls).length := by
  show (l ++ concatLines ls).length = _
  rw [String.length_append]

theorem interCRLF_length_two (l l' : String) (ls : List String) :
    (intercalateCRLF (l :: l' :: ls)).length =
      l.length + 2 + (intercalateCRLF (l' :: ls)).length := by
  show (l ++ "\r\n" ++ intercalateCRLF (l' :: ls)).length = _
  rw [String.length_append, String.length_append]
  rfl

theorem concat_le_inter :
    ∀ bs : List String, (concatLines bs).length ≤ (intercalateCRLF bs).length
  | [] => le_refl _
  | [l] => by
    have h : (concatLines [l]).length = l.length := by
      rw [concatLines_length_cons]; rfl
    rw [h]; exact le_refl _
  | l :: l' :: ls => by
    have ih := concat_le_inter (l' :: ls)
    rw [concatLines_length_cons, interCRLF_length_two]
    omega

theorem concat_ne_inter_two (x y : String) (ls : List String) :
    concatLines (x :: y :: ls) ≠ intercalateCRLF (x :: y :: ls) := by
  intro h
  have hlen := congrArg String.length h
  have ih := concat_le_inter (y :: ls)
  rw [concatLines_length_cons, interCRLF_length_two] at hlen
  omega

theorem blank_mem_pySplitCRLF (s : String) :
    "" ∈ pySplitCRLF s ↔ [] ∈ splitCRLFChars s.data := by
  unfold pySplitCRLF
  constructor
  · intro h
    rcases List.mem_map.1 h with ⟨m, hm, hmk⟩
    have : m = [] := by
      have := congrArg String.data hmk
      simpa using this
    rwa [this] at hm
  · intro h
    exact List.mem_map.2 ⟨[], h, rfl⟩

/-! ## Shape of a successful parse -/

theorem parse_request_ok_of_unset (st : ProxyState) (R : String) (st1 : ProxyState)
    (hu : st.url_parsed = none) (h : parse_request st R = .ok st1) :
    st1.url_parsed = none ∧ (∃ m, st1.request_method = some m) ∧
      (∃ u, st1.request_url_parsed = some u) ∧ (∃ v, st1.request_version = some v) := by
  simp only [parse_request] at h
  split at h
  · split at h
    · split at h
      · cases h
      · next u0 heq =>
        rw [hu] at heq
        cases heq
    · cases h
      simp [hu]
  · cases h

/-! ## The validity condition as claim C3 words it, and as the code has it -/

/-- The whitespace-delimited fields of a line (what claim C3 calls "the
first/second whitespace-delimited field"). -/
def whitespaceFields (s : String) : List String :=
  (pySplitSpace s).filter (fun t => t ≠ "")

/-- Claim C3's right-hand side, word for word: exactly 3 CRLF lines, the
method token (first whitespace-delimited field of line 1) equal to "GET",
the version line equal to one of the three versions, and the request-target
(second whitespace-delimited field of line 1) containing "http://". -/
def claimC3Valid (R : String) : Prop :=
  (pySplitCRLF R).length = 3 ∧
  (whitespaceFields ((pySplitCRLF R).getD 0 "")).getD 0 "" = "GET" ∧
  ((pySplitCRLF R).getD 2 "" = "HTTP/1.1" ∨ (pySplitCRLF R).getD 2 "" = "HTTP/1.0" ∨
    (pySplitCRLF R).getD 2 "" = "HTTP/0.9") ∧
  pyIn "http://" ((whitespaceFields ((pySplitCRLF R).getD 0 "")).getD 1 "") = true

/-- What `check_request_validity` actually tests: exactly 3 CRLF lines, the
whole first line (stripped) equal to "GET", the whole third line (stripped)
equal to one of the three versions, and "http://" occurring somewhere in the
second line (stripped). -/
def amendedC3Valid (R : String) : Prop :=
  (pySplitCRLF R).length = 3 ∧
  pyStrip ((pySplitCRLF R).getD 0 "") = "GET" ∧
  (pyStrip ((pySplitCRLF R).getD 2 "") = "HTTP/1.1" ∨
    pyStrip ((pySplitCRLF R).getD 2 "") = "HTTP/1.0" ∨
    pyStrip ((pySplitCRLF R).getD 2 "") = "HTTP/0.9") ∧
  pyIn "http://" (pyStrip ((pySplitCRLF R).getD 1 "")) = true

/-! ## Membership facts about the normalized header block -/

theorem CL_mem_normHeaders (hs bs : List String) (b : Bool)
    (hcl : (hs.any fun line => pyIn "Content-Length" line) = false) :
    ("Content-Length: " ++ natToStr (bs.foldl (fun acc line => acc + line.length) 0)) ∈
      normHeaders hs bs b := by
  have hcl' : ¬((hs.any fun line => pyIn "Content-Length" line) = true) := by simp [hcl]
  simp only [normHeaders, if_neg hcl']
  by_cases hConn : (((hs ++ ["Content-Length: " ++
      natToStr (bs.foldl (fun acc line => acc + line.length) 0)]).any
      fun line => pyIn "Connection: close" line) = true) <;>
    simp [hConn, List.mem_append]

theorem cacheHit1_mem_normHeaders (hs bs : List String) :
    "Cache-Hit: 1" ∈ normHeaders hs bs true := by
  simp only [normHeaders]
  by_cases hCL : (hs.any fun line => pyIn "Content-Length" line) = true <;>
    [skip; skip] <;>
    simp [hCL, List.mem_append]

/-! ## The claims -/

/-! ## The store path and the read path of the cache -/

/-- Character-level joining of `'/'`-separated pieces (counterpart of
`splitAtChar '/'`). -/
def interSlashChars : List (List Char) → List Char
  | [] => []
  | [l] => l
  | l :: l' :: ls => l ++ '/' :: interSlashChars (l' :: ls)

theorem splitAtChar_ne_nil (sep : Char) (l : List Char) : splitAtChar sep l ≠ [] := by
  match l with
  | [] => simp [splitAtChar]
  | c :: rest =>
    simp only [splitAtChar]
    split
    · simp
    · split <;> simp

theorem interSlashChars_split : ∀ l : List Char, interSlashChars (splitAtChar '/' l) = l
  | [] => rfl
  | c :: rest => by
    by_cases hc : c = '/'
    · subst hc
      have ih := interSlashChars_split rest
      rw [splitAtChar.eq_2, if_pos rfl]
      match hsp : splitAtChar '/' rest with
      | [] => exact absurd hsp (splitAtChar_ne_nil _ _)
      | m :: ms =>
        rw [hsp] at ih
        calc interSlashChars ([] :: m :: ms) = '/' :: interSlashChars (m :: ms) := rfl
          _ = '/' :: rest := by rw [ih]
    · have ih := interSlashChars_split rest
      rw [splitAtChar.eq_2, if_neg hc]
      match hsp : splitAtChar '/' rest with
      | [] => exact absurd hsp (splitAtChar_ne_nil _ _)
      | m :: ms =>
        rw [hsp] at ih
        cases ms with
        | nil =>
          have hm : m = rest := ih
          simp [interSlashChars, hm]
        | cons m2 ms2 =>
          calc interSlashChars ((c :: m) :: m2 :: ms2)
              = c :: (m ++ '/' :: interSlashChars (m2 :: ms2)) := rfl
            _ = c :: interSlashChars (m :: m2 :: ms2) := rfl
            _ = c :: rest := by rw [ih]

/-- String-level joining with `"/"` separators. -/
def intercalateSlash : List String → String
  | [] => ""
  | [l] => l
  | l :: l' :: ls => l ++ "/" ++ intercalateSlash (l' :: ls)

theorem intercalateSlash_map_mk :
    ∀ L : List (List Char), intercalateSlash (L.map String.mk) = String.mk (interSlashChars L)
  | [] => rfl
  | [l] => rfl
  | l :: l' :: ls => by
    have ih := intercalateSlash_map_mk (l' :: ls)
    simp only [List.map_cons] at ih ⊢
    calc intercalateSlash (String.mk l :: String.mk l' :: ls.map String.mk)
        = String.mk l ++ "/" ++ intercalateSlash (String.mk l' :: ls.map String.mk) := rfl
      _ = String.mk l ++ "/" ++ String.mk (interSlashChars (l' :: ls)) := by rw [ih]
      _ = String.mk (interSlashChars (l :: l' :: ls)) := by
          apply strExt
          simp [String.data_append, interSlashChars]

theorem intercalateSlash_pySplitSlash (s : String) :
    intercalateSlash (pySplitSlash s) = s := by
  unfold pySplitSlash
  rw [intercalateSlash_map_mk, interSlashChars_split]

theorem pySplitSlash_ne_nil (s : String) : pySplitSlash s ≠ [] := by
  unfold pySplitSlash
  intro h
  exact splitAtChar_ne_nil '/' s.data (List.map_eq_nil_iff.1 h)

/-- The path-rebuilding loop of `store_response_in_cache`: appending every
component but the last followed by `"/"` onto `pre`, then the last
component, re-joins the split pieces after the `pre` chassis. -/
theorem store_fold_eq :
    ∀ (comps : List String) (pre : String), comps ≠ [] →
      (comps.dropLast.foldl (fun acc comp => acc ++ comp ++ "/") pre) ++
        comps.getLastD "" = pre ++ intercalateSlash comps
  | [], _, h => absurd rfl h
  | [x], pre, _ => by
    simp [List.dropLast, intercalateSlash, List.getLastD]
  | x :: y :: ls, pre, _ => by
    have ih := store_fold_eq (y :: ls) (pre ++ x ++ "/") (by simp)
    have h1 : (x :: y :: ls).dropLast = x :: (y :: ls).dropLast := rfl
    have h2 : (x :: y :: ls).getLastD "" = (y :: ls).getLastD "" := rfl
    rw [h1, List.foldl_cons, h2, ih]
    show (pre ++ x ++ "/") ++ intercalateSlash (y :: ls) =
      pre ++ (x ++ "/" ++ intercalateSlash (y :: ls))
    apply strExt
    simp [String.data_append]

theorem cachePre_append_ne (X : String) : ("./cache/" ++ X) ≠ X := by
  intro h
  have hlen := congrArg String.length h
  rw [String.length_append] at hlen
  have h8 : ("./cache/" : String).length = 8 := rfl
  omega

/-- Where `store_response_in_cache` really writes: its path-rebuilding loop
starts from the literal `"./cache/"` again and then appends every
component of the full path `"./cache/" + hostname + path`, so the body is
stored under `"./cache/" + ("./cache/" + hostname + path)`. -/
theorem store_response_writes_prefixed (st : ProxyState) (u : URLParsed) (cache : Cache)
    (resp : String) (n : Nat)
    (hst : st.request_url_parsed = some u)
    (h : pyIndex (pySplitCRLF resp) "" = some n) :
    store_response_in_cache st cache resp true =
      .ok (cacheWrite cache ("./cache/" ++ ("./cache/" ++ u.hostname ++ u.path))
        (concatLines ((pySplitCRLF resp).drop (n + 1)))) := by
  simp only [store_response_in_cache, hst, attrRead, h]
  rw [store_fold_eq (pySplitSlash ("./cache/" ++ u.hostname ++ u.path)) "./cache/"
    (pySplitSlash_ne_nil _), intercalateSlash_pySplitSlash]
  rfl

/-- Reading back after the store finds nothing: `get_response_from_cache`
consults `"./cache/" + hostname + path`, which the store never wrote, so
its bare `except` fires and the process exits with status 0. -/
theorem read_after_prefixed_write (st : ProxyState) (u : URLParsed) (cache : Cache)
    (body : String)
    (hst : st.request_url_parsed = some u)
    (hmiss : cacheRead cache ("./cache/" ++ u.hostname ++ u.path) = none) :
    get_response_from_cache st
      (cacheWrite cache ("./cache/" ++ ("./cache/" ++ u.hostname ++ u.path)) body) true =
      .error (.exit 0) := by
  have hne : ("./cache/" ++ ("./cache/" ++ u.hostname ++ u.path)) ≠
      ("./cache/" ++ u.hostname ++ u.path) := cachePre_append_ne _
  have hread : cacheRead
      (cacheWrite cache ("./cache/" ++ ("./cache/" ++ u.hostname ++ u.path)) body)
      ("./cache/" ++ u.hostname ++ u.path) = none := by
    simp only [cacheWrite, cacheRead, if_neg hne, hmiss]
  simp only [get_response_from_cache, hst, attrRead, hread]
  rfl

/-- Claim C2 (corrected, amended): through the program's own cache
functions the round trip never yields the body. For every server state
with a parsed URL and every response whose CRLF split contains an empty
line, `store_response_in_cache` stores the response's body (its lines
after the first empty line, concatenated) under
`"./cache/" + ("./cache/" + hostname + path)` — the `"./cache/"` chassis
duplicated — where it is retrievable; that path always differs from the
path `"./cache/" + hostname + path` that `get_response_from_cache` reads,
so on a cache with no prior entry at the read path, reading back after the
write terminates the process via the bare `except` and `sys.exit()` (exit
status 0) instead of yielding a response; in particular write-then-read
produces no response carrying a `Cache-Hit: 1` or `Content-Length`
header. -/
theorem c2_store_read_divergence (st : ProxyState) (u : URLParsed) (cache : Cache)
    (resp : String) (n : Nat)
    (hst : st.request_url_parsed = some u)
    (h : pyIndex (pySplitCRLF resp) "" = some n)
    (hmiss : cacheRead cache ("./cache/" ++ u.hostname ++ u.path) = none) :
    store_response_in_cache st cache resp true =
      .ok (cacheWrite cache ("./cache/" ++ ("./cache/" ++ u.hostname ++ u.path))
        (concatLines ((pySplitCRLF resp).drop (n + 1)))) ∧
    cacheRead (cacheWrite cache ("./cache/" ++ ("./cache/" ++ u.hostname ++ u.path))
        (concatLines ((pySplitCRLF resp).drop (n + 1))))
      ("./cache/" ++ ("./cache/" ++ u.hostname ++ u.path)) =
      some (concatLines ((pySplitCRLF resp).drop (n + 1))) ∧
    ("./cache/" ++ ("./cache/" ++ u.hostname ++ u.path)) ≠
      ("./cache/" ++ u.hostname ++ u.path) ∧
    get_response_from_cache st
      (cacheWrite cache ("./cache/" ++ ("./cache/" ++ u.hostname ++ u.path))
        (concatLines ((pySplitCRLF resp).drop (n + 1)))) true = .error (.exit 0) :=
  ⟨store_response_writes_prefixed st u cache resp n hst h,
   by simp [cacheWrite, cacheRead],
   cachePre_append_ne _,
   read_after_prefixed_write st u cache _ hst hmiss⟩


/-- Claim C3 (corrected), counterexample to the claim as stated: the
request `"GET http://x HTTP/1.0\r\nZ\r\nHTTP/1.0"` satisfies the claim's
condition (3 lines, first whitespace field of line 1 is "GET", the version
line is "HTTP/1.0", the second whitespace field of line 1 contains
"http://"), yet `check_request_validity` rejects it, because the code
compares the whole first line against "GET". -/
theorem c3_counterexample :
    claimC3Valid "GET http://x HTTP/1.0\r\nZ\r\nHTTP/1.0" ∧
    check_request_validity "GET http://x HTTP/1.0\r\nZ\r\nHTTP/1.0" = false := by
  refine ⟨?_, by decide⟩
  unfold claimC3Valid
  decide

/-- Claim C3 (corrected, amended): `check_request_validity(R)` returns true
iff `R` splits on CRLF into exactly 3 lines, the whole first line
(stripped) equals "GET" exactly, the whole third line (stripped) equals one
of "HTTP/1.1", "HTTP/1.0", "HTTP/0.9", and the whole second line (stripped)
contains the substring "http://". -/
theorem c3_validity_iff (R : String) :
    check_request_validity R = true ↔ amendedC3Valid R := by
  simp only [check_request_validity, amendedC3Valid]
  generalize pySplitCRLF R = ls
  rcases ls with _ | ⟨l0, _ | ⟨l1, _ | ⟨l2, _ | ⟨l3, rest⟩⟩⟩⟩
  · simp
  · simp
  · simp
  · rw [if_neg (show ¬([l0, l1, l2].length ≠ 3) by simp)]
    constructor
    · intro h
      by_cases c2 : pyStrip ([l0, l1, l2].getD 0 "") ≠ "GET"
      · rw [if_pos c2] at h; exact absurd h (by simp)
      · rw [if_neg c2] at h
        by_cases c3 : strTake 5 (pyStrip ([l0, l1, l2].getD 2 "")) ≠ "HTTP/"
        · rw [if_pos c3] at h; exact absurd h (by simp)
        · rw [if_neg c3] at h
          by_cases c4 : pyStrip ([l0, l1, l2].getD 2 "") ≠ "HTTP/1.1" ∧
              pyStrip ([l0, l1, l2].getD 2 "") ≠ "HTTP/1.0" ∧
              pyStrip ([l0, l1, l2].getD 2 "") ≠ "HTTP/0.9"
          · rw [if_pos c4] at h; exact absurd h (by simp)
          · rw [if_neg c4] at h
            by_cases c5 : pyIn "http://" (pyStrip ([l0, l1, l2].getD 1 "")) = false
            · rw [if_pos c5] at h; exact absurd h (by simp)
            · push_neg at c4
              have c5' : pyIn "http://" (pyStrip ([l0, l1, l2].getD 1 "")) = true := by
                revert c5
                cases pyIn "http://" (pyStrip ([l0, l1, l2].getD 1 "")) <;> simp
              refine ⟨by simp, not_ne_iff.1 c2, ?_, c5'⟩
              by_cases e1 : pyStrip ([l0, l1, l2].getD 2 "") = "HTTP/1.1"
              · exact Or.inl e1
              · by_cases e2 : pyStrip ([l0, l1, l2].getD 2 "") = "HTTP/1.0"
                · exact Or.inr (Or.inl e2)
                · exact Or.inr (Or.inr (c4 e1 e2))
    · rintro ⟨_, hmet, hver, htgt⟩
      rw [if_neg (not_ne_iff.2 hmet)]
      rcases hver with e | e | e <;>
        rw [e, if_neg (by decide), if_neg (by decide), if_neg (by simpa using htgt)]
  · constructor
    · intro h
      rw [if_pos (show (l0 :: l1 :: l2 :: l3 :: rest).length ≠ 3 by simp)] at h
      exact absurd h (by simp)
    · rintro ⟨hlen, _⟩
      exact absurd hlen (by simp)

/-- Claim C7 (corrected), counterexample to the claim as stated: the cached
body `"\r\nx"` contains no `"\r\n\r\n"` and does not end in `"\r\n"`, yet
the hit path does not fail: its CRLF split contains an empty first piece,
so normalization succeeds. -/
theorem c7_counterexample :
    pyIn "\r\n\r\n" "\r\nx" = false ∧ endsWithCRLF "\r\nx" = false ∧
    add_length_and_cache_to_header "\r\nx" true =
      .ok "Content-Length: 1\r\nConnection: close\r\nCache-Hit: 1\r\n\r\nx" := by
  decide

/-- Claim C7 (corrected, amended): `add_length_and_cache_to_header` raises
an uncaught `ValueError` on every input whose CRLF-split lines contain no
empty line; on a hit, the stored body is fed to it directly, so any cached
body that is non-empty, contains no `"\r\n\r\n"`, does not start with
`"\r\n"`, and does not end with `"\r\n"` makes the hit path fail before a
response is sent. -/
theorem c7_blank_line_valueError (s : String) (b : Bool) :
    ("" ∉ pySplitCRLF s → add_length_and_cache_to_header s b = .error .valueError) ∧
    (s ≠ "" → pyIn "\r\n\r\n" s = false → startsWithCRLF s = false →
      endsWithCRLF s = false →
      add_length_and_cache_to_header s true = .error .valueError) := by
  have key : ∀ b' : Bool, "" ∉ pySplitCRLF s →
      add_length_and_cache_to_header s b' = .error .valueError := by
    intro b' hnm
    have hidx : pyIndex (pySplitCRLF s) "" = none := (pyIndex_none_iff _ _).2 hnm
    simp only [add_length_and_cache_to_header, hidx]
  refine ⟨key b, ?_⟩
  intro hne hsub hpre hend
  apply key true
  rw [blank_mem_pySplitCRLF]
  apply nil_not_mem_split
  · intro hd
    exact hne (strExt s "" (by simp [hd]))
  · exact hsub
  · exact hpre
  · exact hend

/-- Claim C7 witness: the amended claim at the body `"abc"`. -/
theorem c7_witness : add_length_and_cache_to_header "abc" true = .error .valueError :=
  (c7_blank_line_valueError "abc" true).2 (by decide) (by decide) (by decide) (by decide)

/-- Claim C8 (confirmed): in the normalizer, a `"Connection: close"` header
line is inserted iff no existing header line contains the exact substring
`"Connection: close"`; in particular when some header line already equals
`"Connection: close"` exactly, no second one is added: the number of
`"Connection: close"` lines among the output's header lines equals the
number among the input's header lines, plus one exactly when no input
header line contains `"Connection: close"`. -/
theorem c8_connection_close (resp : String) (b : Bool) (n : Nat)
    (h : pyIndex (pySplitCRLF resp) "" = some n) :
    ∃ out, add_length_and_cache_to_header resp b = .ok out ∧
      countEq (respHeaders out) "Connection: close" =
        countEq ((pySplitCRLF resp).take n) "Connection: close" +
          (if (((pySplitCRLF resp).take n).any fun line => pyIn "Connection: close" line) = true
           then 0 else 1) := by
  obtain ⟨out, hok, hH, _⟩ := add_length_parts resp b n h
  refine ⟨out, hok, ?_⟩
  rw [hH]
  have hCH : countEq [if b = true then "Cache-Hit: 1" else "Cache-Hit: 0"]
      "Connection: close" = 0 := by
    cases b <;> decide
  by_cases hCL : (((pySplitCRLF resp).take n).any fun line => pyIn "Content-Length" line) = true
  · simp only [normHeaders, if_pos hCL]
    by_cases hConn : (((pySplitCRLF resp).take n).any fun line => pyIn "Connection: close" line) = true
    · rw [if_pos hConn, if_pos hConn, countEq_append, hCH]
    · rw [if_neg hConn, if_neg hConn, countEq_append, countEq_append, hCH,
        countEq_single_eq]
  · have hne : ¬((((pySplitCRLF resp).take n).any fun line => pyIn "Content-Length" line) = true) := by
      simp [hCL]
    simp only [normHeaders, if_neg hne]
    rw [any_conn_over_CL]
    have hCLcount : countEq ["Content-Length: " ++
        natToStr (((pySplitCRLF resp).drop (n + 1)).foldl
          (fun acc line => acc + line.length) 0)] "Connection: close" = 0 :=
      countEq_single_ne _ _ (CL_ne_conn _)
    by_cases hConn : (((pySplitCRLF resp).take n).any fun line => pyIn "Connection: close" line) = true
    · rw [if_pos hConn, if_pos hConn, countEq_append, countEq_append, hCH, hCLcount]
    · rw [if_neg hConn, if_neg hConn, countEq_append, countEq_append, countEq_append,
        hCH, hCLcount, countEq_single_eq]

/-- Claim C8 witness: a response that already carries an exact
`Connection: close` header line gets no second one. -/
theorem c8_witness :
    ∃ out, add_length_and_cache_to_header "A\r\nConnection: close\r\n\r\nx" true = .ok out ∧
      countEq (respHeaders out) "Connection: close" =
        countEq ((pySplitCRLF "A\r\nConnection: close\r\n\r\nx").take 2) "Connection: close" +
          (if (((pySplitCRLF "A\r\nConnection: close\r\n\r\nx").take 2).any
              fun line => pyIn "Connection: close" line) = true
           then 0 else 1) :=
  c8_connection_close "A\r\nConnection: close\r\n\r\nx" true 2 (by decide)

/-- Claim C9 (confirmed): whenever the normalizer inserts a Content-Length
header (no header line contains `"Content-Length"`), its value equals the
byte length of the body of the response it returns, which is the
concatenation of the input's body lines with the CRLF separators removed;
and that output body differs from the input body whenever the input body
contains a CRLF. -/
theorem c9_content_length_consistent (resp : String) (b : Bool) (n : Nat)
    (h : pyIndex (pySplitCRLF resp) "" = some n)
    (hcl : (((pySplitCRLF resp).take n).any fun line => pyIn "Content-Length" line) = false) :
    ∃ out, add_length_and_cache_to_header resp b = .ok out ∧
      ("Content-Length: " ++ natToStr (respBody out).length) ∈ respHeaders out ∧
      respBody out = concatLines ((pySplitCRLF resp).drop (n + 1)) ∧
      (pyIn "\r\n" (respBody resp) = true → respBody out ≠ respBody resp) := by
  obtain ⟨out, hok, hH, hB⟩ := add_length_parts resp b n h
  have hfold : ((pySplitCRLF resp).drop (n + 1)).foldl
      (fun acc line => acc + line.length) 0 =
      (concatLines ((pySplitCRLF resp).drop (n + 1))).length := by
    rw [foldl_len]
    exact Nat.zero_add _
  refine ⟨out, hok, ?_, hB, ?_⟩
  · rw [hH, hB, ← hfold]
    exact CL_mem_normHeaders _ _ _ hcl
  · intro hcrlf
    rw [hB]
    have hresp : respBody resp = intercalateCRLF ((pySplitCRLF resp).drop (n + 1)) := by
      unfold respBody firstBlankLine
      simp only [h]
    rw [hresp] at hcrlf ⊢
    rcases hbs : (pySplitCRLF resp).drop (n + 1) with _ | ⟨x, _ | ⟨y, ls⟩⟩
    · rw [hbs] at hcrlf
      exact absurd hcrlf (by decide)
    · rw [hbs] at hcrlf
      have hx : pyIn "\r\n" x = false :=
        pySplitCRLF_lines_noCRLF resp x
          (List.drop_subset _ _ (by rw [hbs]; exact List.mem_singleton_self x))
      rw [show intercalateCRLF [x] = x from rfl, hx] at hcrlf
      cases hcrlf
    · exact concat_ne_inter_two x y ls

/-- Claim C9 witness: the response `"A\r\n\r\nx\r\ny"` has body lines
`"x"`, `"y"`; the inserted Content-Length is 2, matching the output body
`"xy"`, which differs from the input body `"x\r\ny"`. -/
theorem c9_witness :
    ∃ out, add_length_and_cache_to_header "A\r\n\r\nx\r\ny" false = .ok out ∧
      ("Content-Length: " ++ natToStr (respBody out).length) ∈ respHeaders out ∧
      respBody out = concatLines ((pySplitCRLF "A\r\n\r\nx\r\ny").drop 2) ∧
      (pyIn "\r\n" (respBody "A\r\n\r\nx\r\ny") = true →
        respBody out ≠ respBody "A\r\n\r\nx\r\ny") :=
  c9_content_length_consistent "A\r\n\r\nx\r\ny" false 1 (by decide) (by decide)

/-- Claim C1 (code bug): the dispatch on the origin status code can never
take the 200 or 404 branch, because `get_status_code` returns a Python
`str` and `handle_request` compares it with the `int`s `200` and `404` —
always false in Python. Evaluated at the spec's own scenario (a valid
request, an empty cache, origin answering `HTTP/1.0 200 OK` with body
`"hi"`, and `url_parsed` hypothetically assigned so that the separate crash
of claim C5 does not fire first), the handler synthesizes a 500 and writes
nothing to the cache, instead of caching the body and forwarding the 200. -/
theorem c1_status_dispatch_dead :
    (∀ (response : String) (code : PyVal), get_status_code response = .ok code →
      pyEq code (.int 200) = false ∧ pyEq code (.int 404) = false) ∧
    get_status_code "HTTP/1.0 200 OK\r\n\r\nhi" = .ok (.str "200") ∧
    handle_request { freshState with url_parsed := some (urlparse "http://h:1/a") } []
      ⟨some "GET \r\nhttp://h:1/a \r\nHTTP/1.0", true, some "HTTP/1.0 200 OK\r\n\r\nhi",
        true, true⟩ =
      { sent := ["HTTP/1.1 500 Internal Server Error\r\nContent-Length: 2\r\nConnection: close\r\nCache-Hit: 0\r\n\r\nhi"],
        closed := true, cache := [], cacheReadDone := false,
        originContacted := true, outcome := .normal } := by
  refine ⟨?_, by decide, by decide⟩
  intro response code h
  simp only [get_status_code] at h
  split at h
  · cases h
    exact ⟨rfl, rfl⟩
  · cases h

/-- Claim C1 witness: the dispatch comparison at the extracted code
`"200"`. -/
theorem c1_witness :
    pyEq (.str "200") (.int 200) = false ∧ pyEq (.str "200") (.int 404) = false :=
  c1_status_dispatch_dead.1 "HTTP/1.0 200 OK\r\n\r\nhi" (.str "200") (by decide)

/-- Claim C4 (code bug): on the valid request
`"GET \r\nhttp://h \r\nHTTP/1.0"`, whose target URL carries no explicit
port, `parse_request` does not produce a Request with port 80: after
patching the netloc it evaluates `self.url_parsed.geturl()`, reading the
never-assigned attribute `url_parsed`, and raises `AttributeError`. -/
theorem c4_port_default_crash :
    check_request_validity "GET \r\nhttp://h \r\nHTTP/1.0" = true ∧
    (urlparse "http://h").port = none ∧
    freshState.url_parsed = none ∧
    parse_request freshState "GET \r\nhttp://h \r\nHTTP/1.0" = .error .attributeError := by
  decide

/-- Claim C5 (confirmed): with `url_parsed` never assigned (as on any fresh
`ProxyServer`), every valid request whose key misses the cache makes the
handler raise an uncaught exception before sending any response, provided
the origin connect step itself succeeds: either `parse_request` fails (an
`AttributeError` reading `url_parsed` when the target URL has no explicit
port, or an `IndexError` when the request has fewer than three
space-delimited fields), or `send_request_to_server` reads the same
unassigned `url_parsed` while building the outbound request line. -/
theorem c5_unset_url_parsed_crash (st : ProxyState) (cache : Cache) (w : World) (R : String)
    (hu : st.url_parsed = none)
    (hr : w.recvResult = some R)
    (hv : check_request_validity R = true)
    (hc : w.connectOk = true)
    (hmiss : ∀ st1, parse_request st R = .ok st1 → check_file_in_cache st1 cache = .ok false) :
    (handle_request st cache w).sent = [] ∧
      ∃ e, (handle_request st cache w).outcome = .uncaught e := by
  simp only [handle_request, hr, hv]
  cases hp : parse_request st R with
  | error e => exact ⟨rfl, e, rfl⟩
  | ok st1 =>
    obtain ⟨hu1, ⟨m, hm⟩, ⟨u, hru⟩, ⟨v, hrv⟩⟩ := parse_request_ok_of_unset st R st1 hu hp
    have hmiss1 := hmiss st1 hp
    have hsend : send_request_to_server st1 w.connectOk w.originResponse =
        .error .attributeError := by
      unfold send_request_to_server
      rw [hru]
      simp only [hc, hm, hu1, attrRead]
      rfl
    simp only [hmiss1, hsend]
    exact ⟨rfl, .attributeError, rfl⟩

/-- Claim C5 witness: a fresh server, an empty cache, a working connect and
the valid request `"GET \r\nhttp://h:1/a \r\nHTTP/1.0"` (its URL carries
an explicit port, so parsing succeeds and the crash is in
`send_request_to_server`). -/
theorem c5_witness :
    (handle_request freshState []
      ⟨some "GET \r\nhttp://h:1/a \r\nHTTP/1.0", true, some "x", true, true⟩).sent = [] ∧
    ∃ e, (handle_request freshState []
      ⟨some "GET \r\nhttp://h:1/a \r\nHTTP/1.0", true, some "x", true, true⟩).outcome =
        .uncaught e :=
  c5_unset_url_parsed_crash freshState []
    ⟨some "GET \r\nhttp://h:1/a \r\nHTTP/1.0", true, some "x", true, true⟩
    "GET \r\nhttp://h:1/a \r\nHTTP/1.0" rfl rfl (by decide) rfl
    (fun st1 hp => by
      rw [show parse_request freshState "GET \r\nhttp://h:1/a \r\nHTTP/1.0" =
        .ok { request_method := some "GET",
              request_url_parsed := some ⟨"http", "h:1", "h", some 1, "/a"⟩,
              request_version := some "HTTP/1.0", url_parsed := none } from by decide] at hp
      injection hp with h1
      rw [← h1]
      decide)

/-- Claim C6 (confirmed): every request that fails the validity check gets
exactly the fixed null-based 500 response — status line
`HTTP/1.1 500 Internal Server Error`, headers `Content-Length: 0`,
`Connection: close`, `Cache-Hit: 0`, empty body — with no cache read or
write, no origin contact, and the client connection closed. -/
theorem c6_invalid_gets_fixed_500 (st : ProxyState) (cache : Cache) (w : World) (R : String)
    (hr : w.recvResult = some R) (hv : check_request_validity R = false) :
    handle_request st cache w =
      { sent := ["HTTP/1.1 500 Internal Server Error\r\nContent-Length: 0\r\nConnection: close\r\nCache-Hit: 0\r\n\r\n"],
        closed := true, cache := cache, cacheReadDone := false,
        originContacted := false, outcome := .normal } := by
  simp only [handle_request, hr, hv]
  rfl

/-- Claim C6 witness: the spec's POST scenario. -/
theorem c6_witness :
    handle_request freshState [] ⟨some "POST http://x HTTP/1.0\r\nZ\r\n", true, none, true, true⟩ =
      { sent := ["HTTP/1.1 500 Internal Server Error\r\nContent-Length: 0\r\nConnection: close\r\nCache-Hit: 0\r\n\r\n"],
        closed := true, cache := [], cacheReadDone := false,
        originContacted := false, outcome := .normal } :=
  c6_invalid_gets_fixed_500 freshState []
    ⟨some "POST http://x HTTP/1.0\r\nZ\r\n", true, none, true, true⟩
    "POST http://x HTTP/1.0\r\nZ\r\n" rfl (by decide)

/-- A state whose `request_url_parsed` is assigned, as it is after a
successful parse, for exercising the cache-store functions directly. -/
def stWithUrl : ProxyState :=
  { freshState with request_url_parsed := some (urlparse "http://h/a") }

/-- Claim C10 (corrected), counterexample to the claim as stated: on a
cache read failure, a cache write failure, and a missing port argument the
process terminates via `sys.exit()` with no argument — exit status 0, not
a non-zero status. -/
theorem c10_counterexample :
    get_response_from_cache stWithUrl [] false = .error (.exit 0) ∧
    (¬ ∃ s, s ≠ 0 ∧ get_response_from_cache stWithUrl [] false = .error (.exit s)) ∧
    store_response_in_cache stWithUrl [] "HTTP/1.0 200 OK\r\n\r\nhi" false = .error (.exit 0) ∧
    get_port_num ["proxy.py"] = .error (.exit 0) := by
  refine ⟨by decide, ?_, by decide, by decide⟩
  rintro ⟨s, hs, hkey⟩
  rw [show get_response_from_cache stWithUrl [] false = .error (.exit 0) from by decide] at hkey
  injection hkey with h1
  injection h1 with h2
  exact hs h2.symm

/-- Claim C10 (corrected, amended): whenever a cache read fails, a cache
write fails, or no port argument is supplied, the process terminates — but
with exit status 0 (`sys.exit()` without argument), not a non-zero
status. -/
theorem c10_exit_status_zero (st : ProxyState) (u : URLParsed) (cache : Cache)
    (resp : String) (n : Nat) (argv : List String)
    (hst : st.request_url_parsed = some u) :
    get_response_from_cache st cache false = .error (.exit 0) ∧
    (pyIndex (pySplitCRLF resp) "" = some n →
      store_response_in_cache st cache resp false = .error (.exit 0)) ∧
    (argv.length < 2 → get_port_num argv = .error (.exit 0)) := by
  refine ⟨?_, ?_, ?_⟩
  · simp only [get_response_from_cache, hst, attrRead]
    rfl
  · intro hidx
    simp only [store_response_in_cache, hst, attrRead, hidx]
    rfl
  · intro hlt
    simp only [get_port_num, if_pos hlt]
    rfl

/-- Claim C10 witness: the amended claim at a state with a parsed URL, an
empty cache, the response `"A\r\n\r\nx"` and the bare argv. -/
theorem c10_witness :
    get_response_from_cache stWithUrl [] false = .error (.exit 0) ∧
    (pyIndex (pySplitCRLF "A\r\n\r\nx") "" = some 1 →
      store_response_in_cache stWithUrl [] "A\r\n\r\nx" false = .error (.exit 0)) ∧
    ((["proxy.py"] : List String).length < 2 → get_port_num ["proxy.py"] = .error (.exit 0)) :=
  c10_exit_status_zero stWithUrl (urlparse "http://h/a") [] "A\r\n\r\nx" 1 ["proxy.py"] rfl

/-- Claim C2 (corrected), counterexample to the claim as stated: through
the program's own cache functions the round trip yields no response at
all. Storing the 200 response with body `"hello"` for the key `h/a` writes
the file `./cache/./cache/h/a`, reading the same key back consults
`./cache/h/a`, misses, and terminates the process with exit status 0 — so
no response containing `Cache-Hit: 1` and `Content-Length: 5` is ever
produced; the existence check for the key misses too. -/
theorem c2_counterexample :
    store_response_in_cache stWithUrl [] "HTTP/1.0 200 OK\r\n\r\nhello" true =
      .ok [("./cache/./cache/h/a", "hello")] ∧
    get_response_from_cache stWithUrl [("./cache/./cache/h/a", "hello")] true =
      .error (.exit 0) ∧
    check_file_in_cache stWithUrl [("./cache/./cache/h/a", "hello")] = .ok false := by
  decide

/-- Claim C2 witness: the amended claim at the state with the parsed URL
`http://h/a`, an empty cache and the origin response
`"HTTP/1.0 200 OK\r\n\r\nhello"`. -/
theorem c2_witness :
    store_response_in_cache stWithUrl [] "HTTP/1.0 200 OK\r\n\r\nhello" true =
      .ok (cacheWrite []
        ("./cache/" ++ ("./cache/" ++ (urlparse "http://h/a").hostname ++
          (urlparse "http://h/a").path))
        (concatLines ((pySplitCRLF "HTTP/1.0 200 OK\r\n\r\nhello").drop 2))) ∧
    cacheRead (cacheWrite []
        ("./cache/" ++ ("./cache/" ++ (urlparse "http://h/a").hostname ++
          (urlparse "http://h/a").path))
        (concatLines ((pySplitCRLF "HTTP/1.0 200 OK\r\n\r\nhello").drop 2)))
      ("./cache/" ++ ("./cache/" ++ (urlparse "http://h/a").hostname ++
        (urlparse "http://h/a").path)) =
      some (concatLines ((pySplitCRLF "HTTP/1.0 200 OK\r\n\r\nhello").drop 2)) ∧
    ("./cache/" ++ ("./cache/" ++ (urlparse "http://h/a").hostname ++
      (urlparse "http://h/a").path)) ≠
      ("./cache/" ++ (urlparse "http://h/a").hostname ++ (urlparse "http://h/a").path) ∧
    get_response_from_cache stWithUrl
      (cacheWrite []
        ("./cache/" ++ ("./cache/" ++ (urlparse "http://h/a").hostname ++
          (urlparse "http://h/a").path))
        (concatLines ((pySplitCRLF "HTTP/1.0 200 OK\r\n\r\nhello").drop 2))) true =
      .error (.exit 0) :=
  c2_store_read_divergence stWithUrl (urlparse "http://h/a") []
    "HTTP/1.0 200 OK\r\n\r\nhello" 1 rfl (by decide) rfl
